import Mathlib

/-!
# Verification of the sportsbook-scraper odds-normalization engine

Shallow embedding of the core normalization logic of
`src/scrapers/sportsbookreview.py` (the `OddsScraper` family and
`NCAABasketball2ndHalf`), together with theorems settling the frozen
claims about it.

Conventions of the embedding:
* Raw table cells are `String`s; numeric odds values after conversion are
  rationals (`ℚ`), mirroring Python `float` arithmetic on the exact decimal
  values involved (no rounding is exercised by any claim).
* Python string builtins (slicing, `int(...)`, `str.split`, `str.strip`,
  `" ".join`, `in`) are modelled by structurally recursive functions on the
  character list `String.data`, so that every definition evaluates inside
  the kernel.  `pyInt`/`pyIntOpt` model `int(...)`: on all-digit input they
  return its decimal value; `pyIntOpt` returns `none` where Python raises
  `ValueError`.
* Python's `float(...)` builtin is kept abstract as a parameter
  `parseFloat : String → Option ℚ` (`none` = a raised `ValueError`).
* Exception-based control flow (`try`/`except`) is modelled with `Option`:
  `none` is a raised exception, handlers turn `none` into the handler's
  result.
-/

namespace SBR

/-! ## Models of Python string builtins -/

/-- Python slicing `s[:n]`. -/
def pyTake (s : String) (n : Nat) : String := ⟨s.data.take n⟩

/-- Python slicing `s[n:]`. -/
def pyDrop (s : String) (n : Nat) : String := ⟨s.data.drop n⟩

/-- The digit-accumulation step used to read off the decimal value of a
digit string (`'0'.toNat = 48`). -/
def digitStep (n : Nat) (c : Char) : Nat := n * 10 + (c.toNat - 48)

/-- Decimal value of a list of digit characters. -/
def natVal (l : List Char) : Nat := l.foldl digitStep 0

/-- Whether a character list is a nonempty string of decimal digits. -/
def isDigitStr (l : List Char) : Bool := !l.isEmpty && l.all (·.isDigit)

/-- Python `int(s)` for a nonnegative integer literal: its decimal value on
a nonempty all-digit string, `none` (a raised `ValueError`) otherwise.
(Sign handling, where needed, is layered on top in `pyIntOpt`.) -/
def pyNat? (s : String) : Option Nat :=
  if isDigitStr s.data then some (natVal s.data) else none

/-- Python `int(s)` where the surrounding code lets a `ValueError`
propagate into a context that treats it as `0`; claims restrict to digit
strings, where the default is never used. -/
def pyInt (s : String) : Nat := (pyNat? s).getD 0

example : pyNat? "215" = some 215 := by decide
example : pyNat? "21a" = none := by decide

/-! ## TokenSanitizer (`OddsScraper.__init__`, `_reformat_data`)

`self.blacklist` from `OddsScraper.__init__` (src/scrapers/sportsbookreview.py
lines 59-70). -/

def blacklist : List String :=
  ["pk", "PK", "NL", "nl", "a100", "a105", "a110", ".5+03", ".5ev", "-"]

/-- The NHL-style sanitization lambda
`lambda x: 0 if x in self.blacklist else float(x)`
(`NHLOddsScraper._reformat_data`).  `parseFloat` models Python `float`;
`none` models a raised `ValueError`. -/
def sanitizeToken (parseFloat : String → Option ℚ) (x : String) : Option ℚ :=
  if x ∈ blacklist then some 0 else parseFloat x

/-- The NFL-style two-stage sanitization: `NFLOddsScraper._reformat_data`
applies `lambda x: 0 if x in self.blacklist else x` (keeping the raw token),
and `_to_schema` later applies `float(...)` to the kept value
(`float(0) = 0.0` for the substituted sentinel). -/
def nflSanitize (parseFloat : String → Option ℚ) (x : String) : Option ℚ :=
  match (if x ∈ blacklist then Sum.inl (0 : ℚ) else Sum.inr x) with
  | Sum.inl q => some q
  | Sum.inr s => parseFloat s

/-! ## SeasonCalendar (`OddsScraper._make_season`, `_make_datestr`) -/

/-- `OddsScraper._make_season`:
`season = str(season); yr = season[2:]; next_yr = str(int(yr) + 1);`
`return f"{season}-{next_yr}"`. -/
def makeSeason (season : Nat) : String :=
  let s := toString season
  let yr := pyDrop s 2
  let nextYr := toString (pyInt yr + 1)
  s ++ "-" ++ nextYr

/-- The padding step of `_make_datestr`:
`if len(date) == 3: date = f"0{date}"`. -/
def padDate (date : String) : String :=
  if date.data.length = 3 then "0" ++ date else date

/-- `OddsScraper._make_datestr(date, season, start=8, yr_end=12)`:
after padding, `month = date[:2]`, `day = date[2:]`; if
`int(month) in range(start, yr_end + 1)` the result is
`int(f"{season}{month}{day}")`, else `int(f"{season + 1}{month}{day}")`. -/
def makeDatestr (date : String) (season start yrEnd : Nat) : Nat :=
  let d := padDate date
  let month := pyTake d 2
  let day := pyDrop d 2
  let m := pyInt month
  if start ≤ m ∧ m ≤ yrEnd then
    pyInt (toString season ++ month ++ day)
  else
    pyInt (toString (season + 1) ++ month ++ day)

/-! ## Facts about decimal strings

`toString (n : Nat)` is `Nat.repr`, built from `Nat.toDigitsCore`; the
lemmas below characterize its characters and its decimal value, and how
`natVal` acts on concatenations.  They back the season/date theorems. -/

theorem toString_nat_data (n : Nat) : (toString n).data = Nat.toDigits 10 n := rfl

theorem sdata_append (s t : String) : (s ++ t).data = s.data ++ t.data := rfl

theorem digitChar_spec (m : Nat) (h : m < 10) :
    (Nat.digitChar m).isDigit = true ∧ (Nat.digitChar m).toNat - 48 = m := by
  interval_cases m <;> exact ⟨by decide, by decide⟩

theorem digit_toNat_lt {c : Char} (h : c.isDigit = true) : c.toNat - 48 < 10 := by
  simp only [Char.isDigit, Bool.and_eq_true, decide_eq_true_eq] at h
  have h2 := h.2
  rw [UInt32.le_def, BitVec.le_def] at h2
  have hc : c.toNat = c.val.toBitVec.toNat := rfl
  have h57 : ((57 : UInt32).toBitVec).toNat = 57 := by decide
  omega

theorem foldl_digitStep_shift (l : List Char) : ∀ init : Nat,
    l.foldl digitStep init = init * 10 ^ l.length + natVal l := by
  induction l with
  | nil => intro init; simp [natVal]
  | cons c t ih =>
    intro init
    show List.foldl digitStep (digitStep init c) t = _
    rw [ih]
    have h0 : natVal (c :: t) = (c.toNat - 48) * 10 ^ t.length + natVal t := by
      show List.foldl digitStep (digitStep 0 c) t = _
      rw [ih]
      simp [digitStep]
    rw [h0]
    simp only [digitStep, List.length_cons, pow_succ]
    ring

theorem natVal_lt (l : List Char) (h : ∀ c ∈ l, c.isDigit = true) :
    natVal l < 10 ^ l.length := by
  induction l with
  | nil => simp [natVal]
  | cons c t ih =>
    have hc : c.toNat - 48 < 10 := digit_toNat_lt (h c (by simp))
    have ht : natVal t < 10 ^ t.length := ih (fun x hx => h x (by simp [hx]))
    have h0 : natVal (c :: t) = (c.toNat - 48) * 10 ^ t.length + natVal t := by
      show List.foldl digitStep (digitStep 0 c) t = _
      rw [foldl_digitStep_shift]
      simp [digitStep]
    rw [h0, List.length_cons, pow_succ]
    nlinarith [pow_pos (by norm_num : (0:ℕ) < 10) t.length]

theorem natVal_append (a b : List Char) :
    natVal (a ++ b) = natVal a * 10 ^ b.length + natVal b := by
  show (a ++ b).foldl digitStep 0 = _
  rw [List.foldl_append]
  show b.foldl digitStep (natVal a) = _
  rw [foldl_digitStep_shift]

theorem toDigitsCore_spec : ∀ (fuel n : Nat) (ds : List Char), n < fuel →
    ∃ l : List Char, Nat.toDigitsCore 10 fuel n ds = l ++ ds ∧ l ≠ [] ∧
      (∀ c ∈ l, c.isDigit = true) ∧ natVal l = n ∧
      n < 10 ^ l.length ∧ (1 ≤ n → 10 ^ (l.length - 1) ≤ n) := by
  intro fuel
  induction fuel with
  | zero => intro n ds h; omega
  | succ f ih =>
    intro n ds _
    by_cases h0 : n / 10 = 0
    · have hn : n < 10 := by omega
      refine ⟨[Nat.digitChar (n % 10)], ?_, by simp, ?_, ?_, ?_, ?_⟩
      · show Nat.toDigitsCore 10 (f + 1) n ds = _
        rw [Nat.toDigitsCore]
        simp [h0]
      · intro c hc
        simp at hc
        subst hc
        exact (digitChar_spec (n % 10) (by omega)).1
      · show digitStep 0 (Nat.digitChar (n % 10)) = n
        have := (digitChar_spec (n % 10) (by omega)).2
        simp [digitStep]
        omega
      · simpa using hn
      · intro h1; simpa using h1
    · have hrec : n / 10 < f := by omega
      obtain ⟨l', heq, hne, hdig, hval, hub, hlb⟩ :=
        ih (n / 10) (Nat.digitChar (n % 10) :: ds) hrec
      refine ⟨l' ++ [Nat.digitChar (n % 10)], ?_, by simp, ?_, ?_, ?_, ?_⟩
      · show Nat.toDigitsCore 10 (f + 1) n ds = _
        rw [Nat.toDigitsCore]
        simp only [h0, if_false]
        rw [heq]
        simp
      · intro c hc
        simp at hc
        rcases hc with hc | hc
        · exact hdig c hc
        · subst hc; exact (digitChar_spec (n % 10) (by omega)).1
      · show (l' ++ [Nat.digitChar (n % 10)]).foldl digitStep 0 = n
        rw [List.foldl_append]
        show digitStep (natVal l') (Nat.digitChar (n % 10)) = n
        have hd := (digitChar_spec (n % 10) (by omega)).2
        simp [digitStep, hval, hd]
        omega
      · rw [List.length_append]
        have hp : 10 ^ (l'.length + 1) = 10 ^ l'.length * 10 := by ring
        simp only [List.length_singleton]
        omega
      · intro _
        have h10 : 10 ≤ n := by omega
        have hl1 : 1 ≤ l'.length := by
          cases l' with
          | nil => exact absurd rfl hne
          | cons a t => simp
        have hlb' : 10 ^ (l'.length - 1) ≤ n / 10 := hlb (by omega)
        rw [List.length_append, List.length_singleton]
        have hpow : 10 ^ (l'.length + 1 - 1) = 10 ^ (l'.length - 1) * 10 := by
          have he : l'.length + 1 - 1 = (l'.length - 1) + 1 := by omega
          rw [he, pow_succ]
        rw [hpow]
        have hmul : (n / 10) * 10 ≤ n := by omega
        nlinarith

theorem toString_nat_spec (n : Nat) :
    (toString n).data ≠ [] ∧ (∀ c ∈ (toString n).data, c.isDigit = true) ∧
    natVal (toString n).data = n ∧ n < 10 ^ (toString n).data.length ∧
    (1 ≤ n → 10 ^ ((toString n).data.length - 1) ≤ n) := by
  obtain ⟨l, heq, hne, hdig, hval, hub, hlb⟩ :=
    toDigitsCore_spec (n + 1) n [] (Nat.lt_succ_self n)
  have hd : (toString n).data = l := by
    rw [toString_nat_data]
    show Nat.toDigitsCore 10 (n + 1) n [] = l
    rw [heq]
    simp
  rw [hd]
  exact ⟨hne, hdig, hval, hub, hlb⟩

theorem pyInt_digits (s : String) (h1 : s.data ≠ [])
    (h2 : ∀ c ∈ s.data, c.isDigit = true) : pyInt s = natVal s.data := by
  have hA : s.data.isEmpty = false := by
    cases h : s.data with
    | nil => exact absurd h h1
    | cons a t => rfl
  have hB : s.data.all (·.isDigit) = true := by
    rw [List.all_eq_true]
    exact h2
  simp [pyInt, pyNat?, isDigitStr, hA, hB]

/-- C4 counterexample: the claim asserts `_make_season(1999) = "1999-00"`
(second component `(Y + 1) mod 100`, zero-padded).  The code computes
`str(int("99") + 1) = "100"` with no padding or reduction mod 100, so
`_make_season(1999) = "1999-100"`. -/
theorem makeSeason_1999_counterexample :
    makeSeason 1999 = "1999-100" ∧ makeSeason 1999 ≠ "1999-00" :=
  ⟨by decide, by decide⟩

/-- C4 (amended): for every four-digit year `Y`, `_make_season(Y)` is
`str(Y) ++ "-" ++ str((Y mod 100) + 1)` — the second component is the
successor of the last two digits rendered with no zero-padding (so
`2021 ↦ "2021-22"`, `2008 ↦ "2008-9"`, `1999 ↦ "1999-100"`). -/
theorem makeSeason_no_padding : ∀ y : Nat, 1000 ≤ y → y ≤ 9999 →
    makeSeason y = toString y ++ "-" ++ toString (y % 100 + 1) := by
  intro y h1 h2
  obtain ⟨hne, hdig, hval, hub, hlb⟩ := toString_nat_spec y
  have hlb4 : 10 ^ ((toString y).data.length - 1) ≤ y := hlb (by omega)
  have hge : 4 ≤ (toString y).data.length := by
    by_contra hcon
    push_neg at hcon
    have hmono : (10:ℕ) ^ (toString y).data.length ≤ 10 ^ 3 :=
      Nat.pow_le_pow_right (by norm_num) (by omega)
    have h1000 : (10:ℕ) ^ 3 = 1000 := by norm_num
    omega
  have hle : (toString y).data.length ≤ 4 := by
    by_contra hcon
    push_neg at hcon
    have hmono : (10:ℕ) ^ 4 ≤ 10 ^ ((toString y).data.length - 1) :=
      Nat.pow_le_pow_right (by norm_num) (by omega)
    have h10000 : (10:ℕ) ^ 4 = 10000 := by norm_num
    omega
  have hlen : (toString y).data.length = 4 := by omega
  have key : pyInt (pyDrop (toString y) 2) = y % 100 := by
    have hlen2 : ((toString y).data.drop 2).length = 2 := by
      rw [List.length_drop, hlen]
    have hne2 : ((toString y).data.drop 2) ≠ [] := by
      intro hnil
      rw [hnil] at hlen2
      simp at hlen2
    have hdig2 : ∀ c ∈ (toString y).data.drop 2, c.isDigit = true :=
      fun c hc => hdig c (List.drop_subset _ _ hc)
    have hpy : pyInt (pyDrop (toString y) 2) = natVal ((toString y).data.drop 2) :=
      pyInt_digits (pyDrop (toString y) 2) hne2 hdig2
    have hsplit := List.take_append_drop 2 (toString y).data
    have hv : natVal ((toString y).data.take 2 ++ (toString y).data.drop 2) = y := by
      rw [hsplit, hval]
    rw [natVal_append, hlen2] at hv
    have hlt : natVal ((toString y).data.drop 2) < 100 := by
      have hb := natVal_lt _ hdig2
      rw [hlen2] at hb
      norm_num at hb
      exact hb
    rw [hpy]
    omega
  simp only [makeSeason]
  rw [key]

/-- C4 witness: instantiating the amended claim at `Y = 1999`. -/
theorem makeSeason_no_padding_witness : makeSeason 1999 = "1999-100" := by
  have h := makeSeason_no_padding 1999 (by norm_num) (by norm_num)
  exact h.trans (by decide)

/-- C5: for every raw date string of 3 or 4 decimal digits "MMDD" (3-digit
input left-padded with one zero), every season year `S` and month window
`[start, yrEnd]`, `_make_datestr` returns `S * 10000 + MM * 100 + DD` when
`MM ∈ [start, yrEnd]` and `(S + 1) * 10000 + MM * 100 + DD` otherwise. -/
theorem makeDatestr_spec : ∀ (date : String) (S start yrEnd : Nat),
    (∀ c ∈ date.data, c.isDigit = true) →
    (date.data.length = 3 ∨ date.data.length = 4) →
    makeDatestr date S start yrEnd =
      (if start ≤ pyInt (pyTake (padDate date) 2) ∧
          pyInt (pyTake (padDate date) 2) ≤ yrEnd
       then S * 10000 + pyInt (pyTake (padDate date) 2) * 100 +
            pyInt (pyDrop (padDate date) 2)
       else (S + 1) * 10000 + pyInt (pyTake (padDate date) 2) * 100 +
            pyInt (pyDrop (padDate date) 2)) := by
  intro date S start yrEnd hdig hlen
  have hp : (padDate date).data.length = 4 ∧
      ∀ c ∈ (padDate date).data, c.isDigit = true := by
    rcases hlen with h3 | h4
    · have hpad : padDate date = "0" ++ date := by
        simp [padDate, h3]
      rw [hpad]
      have hdata : ("0" ++ date).data = '0' :: date.data := rfl
      rw [hdata]
      constructor
      · simp [h3]
      · intro c hc
        rcases List.mem_cons.mp hc with hc | hc
        · subst hc; decide
        · exact hdig c hc
    · have hpad : padDate date = date := by
        simp [padDate, h4]
      rw [hpad]
      exact ⟨h4, hdig⟩
  obtain ⟨hplen, hpdig⟩ := hp
  have htklen : ((padDate date).data.take 2).length = 2 := by
    rw [List.length_take, hplen]
    decide
  have hdrlen : ((padDate date).data.drop 2).length = 2 := by
    rw [List.length_drop, hplen]
  have htkne : (padDate date).data.take 2 ≠ [] := by
    intro hnil; rw [hnil] at htklen; simp at htklen
  have hdrne : (padDate date).data.drop 2 ≠ [] := by
    intro hnil; rw [hnil] at hdrlen; simp at hdrlen
  have htkdig : ∀ c ∈ (padDate date).data.take 2, c.isDigit = true :=
    fun c hc => hpdig c (List.take_subset _ _ hc)
  have hdrdig : ∀ c ∈ (padDate date).data.drop 2, c.isDigit = true :=
    fun c hc => hpdig c (List.drop_subset _ _ hc)
  have hmm : pyInt (pyTake (padDate date) 2) = natVal ((padDate date).data.take 2) :=
    pyInt_digits _ htkne htkdig
  have hdd : pyInt (pyDrop (padDate date) 2) = natVal ((padDate date).data.drop 2) :=
    pyInt_digits _ hdrne hdrdig
  have main : ∀ T : Nat,
      pyInt (toString T ++ pyTake (padDate date) 2 ++ pyDrop (padDate date) 2) =
        T * 10000 + natVal ((padDate date).data.take 2) * 100 +
          natVal ((padDate date).data.drop 2) := by
    intro T
    obtain ⟨hTne, hTdig, hTval, _, _⟩ := toString_nat_spec T
    have hdata : (toString T ++ pyTake (padDate date) 2 ++ pyDrop (padDate date) 2).data
        = ((toString T).data ++ (padDate date).data.take 2) ++ (padDate date).data.drop 2 := rfl
    have hne' : (toString T ++ pyTake (padDate date) 2 ++ pyDrop (padDate date) 2).data ≠ [] := by
      rw [hdata]
      simp only [ne_eq, List.append_eq_nil]
      intro hcon
      exact hTne hcon.1.1
    have hdig' : ∀ c ∈ (toString T ++ pyTake (padDate date) 2 ++ pyDrop (padDate date) 2).data,
        c.isDigit = true := by
      rw [hdata]
      intro c hc
      rcases List.mem_append.mp hc with hc | hc
      · rcases List.mem_append.mp hc with hc | hc
        · exact hTdig c hc
        · exact htkdig c hc
      · exact hdrdig c hc
    rw [pyInt_digits _ hne' hdig', hdata, natVal_append, natVal_append,
      hdrlen, htklen, hTval]
    ring
  simp only [makeDatestr]
  rw [hmm]
  split
  · rw [main S, hdd]
  · rw [main (S + 1), hdd]

/-- C5 witness: the two concrete instances named in the claim, obtained by
instantiating `makeDatestr_spec`. -/
theorem makeDatestr_spec_witness :
    makeDatestr "1109" 2021 8 12 = 20211109 ∧
    makeDatestr "215" 2021 8 12 = 20220215 := by
  constructor
  · have h := makeDatestr_spec "1109" 2021 8 12 (by decide) (by decide)
    exact h.trans (by decide)
  · have h := makeDatestr_spec "215" 2021 8 12 (by decide) (by decide)
    exact h.trans (by decide)

/-! ## SpreadResolver (`NFLOddsScraper._to_schema`, lines 338-371)

One reformatted team-row of the NFL/NBA table, viewed through the numeric
conversions `_to_schema` applies: `float(row["open_odds"])`,
`float(row["close_odds"])`, `float(row["2H_odds"])`, `int(row["close_ml"])`.
The first row of a pair is the away team, the second (`next_row`) the home
team. -/

structure RefRow where
  openOdds : ℚ
  closeOdds : ℚ
  h2Odds : ℚ
  closeMl : Int

/-- The spread/total fields `_to_schema` emits for one paired game. -/
structure ResolvedGame where
  homeMl : Int
  awayMl : Int
  homeOpenSpread : ℚ
  awayOpenSpread : ℚ
  homeCloseSpread : ℚ
  awayCloseSpread : ℚ
  home2HSpread : ℚ
  away2HSpread : ℚ
  h2Total : ℚ
  openOU : ℚ
  closeOU : ℚ

/-- The spread/total resolution of `NFLOddsScraper._to_schema` for one pair
`(row, next_row)`: `odds1 = float(row["open_odds"])`,
`odds2 = float(next_row["open_odds"])`; if `odds1 < odds2` then `row` is the
spread side (its open/close/2H values are spreads, `next_row`'s are totals),
else `next_row` is the spread side; then
`home_*_spread = -spread if home_ml < away_ml else spread` and
`away_*_spread = -home_*_spread`. -/
def resolveSpreads (row nextRow : RefRow) : ResolvedGame :=
  let homeMl := nextRow.closeMl
  let awayMl := row.closeMl
  let odds1 := row.openOdds
  let odds2 := nextRow.openOdds
  let (openSpread, closeSpread, h2Spread, h2Total, openOU, closeOU) :=
    if odds1 < odds2 then
      (odds1, row.closeOdds, row.h2Odds, nextRow.h2Odds, odds2, nextRow.closeOdds)
    else
      (odds2, nextRow.closeOdds, nextRow.h2Odds, row.h2Odds, odds1, row.closeOdds)
  let homeOpenSpread := if homeMl < awayMl then -openSpread else openSpread
  let awayOpenSpread := -homeOpenSpread
  let homeCloseSpread := if homeMl < awayMl then -closeSpread else closeSpread
  let awayCloseSpread := -homeCloseSpread
  let home2HSpread := if homeMl < awayMl then -h2Spread else h2Spread
  let away2HSpread := -home2HSpread
  ⟨homeMl, awayMl, homeOpenSpread, awayOpenSpread, homeCloseSpread,
    awayCloseSpread, home2HSpread, away2HSpread, h2Total, openOU, closeOU⟩

/-- C1: for every resolved pair of rows, the emitted home and away spreads
sum to exactly zero — opening, closing and second-half alike.  (The code
always sets `away_*_spread = -home_*_spread`.) -/
theorem resolve_spreads_zero_sum (row nextRow : RefRow) :
    (resolveSpreads row nextRow).homeOpenSpread +
      (resolveSpreads row nextRow).awayOpenSpread = 0 ∧
    (resolveSpreads row nextRow).homeCloseSpread +
      (resolveSpreads row nextRow).awayCloseSpread = 0 ∧
    (resolveSpreads row nextRow).home2HSpread +
      (resolveSpreads row nextRow).away2HSpread = 0 := by
  simp only [resolveSpreads]
  split <;> refine ⟨?_, ?_, ?_⟩ <;> split <;> ring

/-- C2 counterexample: the claim says the two candidate values come from the
same row and the smaller-magnitude one becomes the spread.  With
`row.open_odds = -5` and `next_row.open_odds = 3` (equal moneylines), the
candidates compared are one from each of the two paired rows, the
comparison is plain signed `<`, and the code picks `-5` (magnitude 5) as
the spread candidate even though the smaller-magnitude value of the pair
is `3`. -/
theorem resolve_open_magnitude_counterexample :
    (resolveSpreads ⟨-5, 0, 0, 100⟩ ⟨3, 0, 0, 100⟩).homeOpenSpread = -5 ∧
    (resolveSpreads ⟨-5, 0, 0, 100⟩ ⟨3, 0, 0, 100⟩).openOU = 3 ∧
    |(3 : ℚ)| < |(-5 : ℚ)| := by
  refine ⟨by norm_num [resolveSpreads], by norm_num [resolveSpreads], by norm_num⟩

/-- C2 (amended): for each paired game the two opening candidates — one
taken from each of the two rows of the pair — are compared with plain
signed `<`; the strictly smaller one is the spread candidate (emitted as
`home_open_spread` up to the favorite sign flip) and the other is the
opening total; on ties the home row's value is the spread candidate. -/
theorem resolve_open_smaller_signed (row nextRow : RefRow) :
    (row.openOdds < nextRow.openOdds →
      ((resolveSpreads row nextRow).homeOpenSpread = row.openOdds ∨
        (resolveSpreads row nextRow).homeOpenSpread = -row.openOdds) ∧
      (resolveSpreads row nextRow).openOU = nextRow.openOdds) ∧
    (¬ row.openOdds < nextRow.openOdds →
      ((resolveSpreads row nextRow).homeOpenSpread = nextRow.openOdds ∨
        (resolveSpreads row nextRow).homeOpenSpread = -nextRow.openOdds) ∧
      (resolveSpreads row nextRow).openOU = row.openOdds) := by
  constructor
  · intro h
    simp only [resolveSpreads, if_pos h]
    constructor
    · split
      · exact Or.inr rfl
      · exact Or.inl rfl
    · trivial
  · intro h
    simp only [resolveSpreads, if_neg h]
    constructor
    · split
      · exact Or.inr rfl
      · exact Or.inl rfl
    · trivial

/-- C2 witness: the amended claim at `row.open_odds = 3`,
`next_row.open_odds = 40`. -/
theorem resolve_open_smaller_signed_witness :
    ((resolveSpreads ⟨3, 0, 0, 150⟩ ⟨40, 0, 0, -170⟩).homeOpenSpread = 3 ∨
      (resolveSpreads ⟨3, 0, 0, 150⟩ ⟨40, 0, 0, -170⟩).homeOpenSpread = -3) ∧
    (resolveSpreads ⟨3, 0, 0, 150⟩ ⟨40, 0, 0, -170⟩).openOU = 40 := by
  have h := (resolve_open_smaller_signed ⟨3, 0, 0, 150⟩ ⟨40, 0, 0, -170⟩).1
    (by norm_num)
  exact ⟨h.1, h.2⟩

/-- C3 counterexample: with `row = (open 3, close 50)` and
`next_row = (open 40, close 7)` (equal moneylines), an independent
comparison of the closing values would make `7` the closing spread; the
code instead inherits the opening comparison (`3 < 40`), emitting the
closing spread `50` and the closing total `7`. -/
theorem resolve_close_independent_counterexample :
    (resolveSpreads ⟨3, 50, 10, 100⟩ ⟨40, 7, 60, 100⟩).homeCloseSpread = 50 ∧
    (resolveSpreads ⟨3, 50, 10, 100⟩ ⟨40, 7, 60, 100⟩).closeOU = 7 ∧
    ¬((50 : ℚ) = 7 ∨ (50 : ℚ) = -7) := by
  refine ⟨by norm_num [resolveSpreads], by norm_num [resolveSpreads], by norm_num⟩

/-- C3 (amended): the closing and second-half spread/total assignments are
inherited from the single comparison of the opening values: whichever row
supplies the opening spread also supplies the closing and second-half
spreads, and the other row supplies the totals; the closing and
second-half values are never compared themselves. -/
theorem resolve_close_inherited (row nextRow : RefRow) :
    (row.openOdds < nextRow.openOdds →
      ((resolveSpreads row nextRow).homeCloseSpread = row.closeOdds ∨
        (resolveSpreads row nextRow).homeCloseSpread = -row.closeOdds) ∧
      (resolveSpreads row nextRow).closeOU = nextRow.closeOdds ∧
      ((resolveSpreads row nextRow).home2HSpread = row.h2Odds ∨
        (resolveSpreads row nextRow).home2HSpread = -row.h2Odds) ∧
      (resolveSpreads row nextRow).h2Total = nextRow.h2Odds) ∧
    (¬ row.openOdds < nextRow.openOdds →
      ((resolveSpreads row nextRow).homeCloseSpread = nextRow.closeOdds ∨
        (resolveSpreads row nextRow).homeCloseSpread = -nextRow.closeOdds) ∧
      (resolveSpreads row nextRow).closeOU = row.closeOdds ∧
      ((resolveSpreads row nextRow).home2HSpread = nextRow.h2Odds ∨
        (resolveSpreads row nextRow).home2HSpread = -nextRow.h2Odds) ∧
      (resolveSpreads row nextRow).h2Total = row.h2Odds) := by
  constructor
  · intro h
    simp only [resolveSpreads, if_pos h]
    refine ⟨?_, trivial, ?_, trivial⟩
    · split
      · exact Or.inr rfl
      · exact Or.inl rfl
    · split
      · exact Or.inr rfl
      · exact Or.inl rfl
  · intro h
    simp only [resolveSpreads, if_neg h]
    refine ⟨?_, trivial, ?_, trivial⟩
    · split
      · exact Or.inr rfl
      · exact Or.inl rfl
    · split
      · exact Or.inr rfl
      · exact Or.inl rfl

/-- C3 witness: the amended claim at the counterexample's input. -/
theorem resolve_close_inherited_witness :
    ((resolveSpreads ⟨3, 50, 10, 100⟩ ⟨40, 7, 60, 100⟩).homeCloseSpread = 50 ∨
      (resolveSpreads ⟨3, 50, 10, 100⟩ ⟨40, 7, 60, 100⟩).homeCloseSpread = -50) ∧
    (resolveSpreads ⟨3, 50, 10, 100⟩ ⟨40, 7, 60, 100⟩).closeOU = 7 := by
  have h := (resolve_close_inherited ⟨3, 50, 10, 100⟩ ⟨40, 7, 60, 100⟩).1
    (by norm_num)
  exact ⟨h.1, h.2.1⟩

/-! ## RowPairer (`OddsScraper._pairwise` + the loop of
`NFLOddsScraper._to_schema`, lines 326-336)

`_pairwise` is `zip(a, b)` after `next(b, None)`: the list of overlapping
consecutive pairs.  `_to_schema` runs it over `df.iterrows()` (pairs of
range-index and row) after one `next(progress)` that discards the first
row (the header), and keeps only the pairs whose first index `i1` is odd
(`if i1 % 2 == 0: continue`), emitting `(row, next_row)`. -/

def pairwise {α : Type} (l : List α) : List (α × α) := l.zip l.tail

def keepPair {α : Type} (p : (Nat × α) × (Nat × α)) : Option (α × α) :=
  if p.1.1 % 2 = 0 then none else some (p.1.2, p.2.2)

def gamesOfIndexed {α : Type} (l : List (Nat × α)) : List (α × α) :=
  (pairwise l).filterMap keepPair

/-- The row-pairing performed by `_to_schema` on a table with range index
`0, 1, 2, …` (`df.iterrows()` = `List.enum`, `next(progress)` = `drop 1`). -/
def toSchemaGames {α : Type} (rows : List α) : List (α × α) :=
  gamesOfIndexed (rows.enum.drop 1)

/-- The `AdjacentPairParity` pairing of the spec: consecutive disjoint
pairs. -/
def chunkPairs {α : Type} : List α → List (α × α)
  | a :: b :: t => (a, b) :: chunkPairs t
  | _ => []

theorem gamesOfIndexed_enumFrom {α : Type} :
    ∀ (data : List α) (k : Nat), k % 2 = 1 →
      gamesOfIndexed (List.enumFrom k data) = chunkPairs data
  | [], _, _ => rfl
  | [_], _, _ => rfl
  | a :: b :: t, k, hk => by
    have hka : keepPair ((k, a), (k + 1, b)) = some (a, b) := by
      simp only [keepPair]
      rw [if_neg (by omega)]
    match t with
    | [] =>
      show List.filterMap keepPair [((k, a), (k + 1, b))] = [(a, b)]
      rw [List.filterMap_cons, hka]
      rfl
    | c :: t' =>
      have hkb : keepPair ((k + 1, b), (k + 2, c)) = none := by
        simp only [keepPair]
        rw [if_pos (by omega)]
      have hrec := gamesOfIndexed_enumFrom (c :: t') (k + 2) (by omega)
      show List.filterMap keepPair
          (((k, a) :: (k + 1, b) :: List.enumFrom (k + 2) (c :: t')).zip
            ((k + 1, b) :: List.enumFrom (k + 2) (c :: t'))) =
        (a, b) :: chunkPairs (c :: t')
      rw [List.zip_cons_cons, List.filterMap_cons, hka]
      show (a, b) :: List.filterMap keepPair
          (((k + 1, b) :: (k + 2, c) :: List.enumFrom (k + 3) t').zip
            ((k + 2, c) :: List.enumFrom (k + 3) t')) = _
      rw [List.zip_cons_cons, List.filterMap_cons, hkb]
      exact congrArg _ hrec

theorem chunkPairs_length {α : Type} :
    ∀ l : List α, (chunkPairs l).length = l.length / 2
  | [] => by simp [chunkPairs]
  | [_] => by simp [chunkPairs]
  | _ :: _ :: t => by
    show (chunkPairs t).length + 1 = (t.length + 1 + 1) / 2
    rw [chunkPairs_length t]
    omega

theorem chunkPairs_getElem? {α : Type} :
    ∀ (l : List α) (k : Nat),
      (chunkPairs l)[k]? =
        (l[2 * k]?).bind fun a => (l[2 * k + 1]?).map fun b => (a, b)
  | [], k => by simp [chunkPairs]
  | [a], k => by
    cases k with
    | zero => simp [chunkPairs]
    | succ m =>
      have h2 : 2 * (m + 1) = m + m + 2 := by ring
      simp [chunkPairs, h2]
  | a :: b :: t, 0 => by simp [chunkPairs]
  | a :: b :: t, k + 1 => by
    have h2 : 2 * (k + 1) = 2 * k + 1 + 1 := by ring
    have h3 : 2 * (k + 1) + 1 = (2 * k + 1) + 1 + 1 := by ring
    show ((a, b) :: chunkPairs t)[k + 1]? = _
    rw [List.getElem?_cons_succ, chunkPairs_getElem? t k, h3, h2,
      List.getElem?_cons_succ, List.getElem?_cons_succ,
      List.getElem?_cons_succ, List.getElem?_cons_succ]

/-- C6: on a table whose first row is the discarded header followed by `N`
data rows, the pairing of `_to_schema` equals the consecutive disjoint
pairing of the data rows: it emits exactly `⌊N / 2⌋` games (so `N / 2` for
even `N`), game `k` consumes exactly data rows `2k` and `2k + 1` (distinct
rows, no row reused), and an odd trailing row is dropped (game `k` exists
iff both its rows do) — all without raising. -/
theorem to_schema_pairing {α : Type} (header : α) (data : List α) :
    toSchemaGames (header :: data) = chunkPairs data ∧
    (toSchemaGames (header :: data)).length = data.length / 2 ∧
    ∀ k : Nat, (toSchemaGames (header :: data))[k]? =
      (data[2 * k]?).bind fun a => (data[2 * k + 1]?).map fun b => (a, b) := by
  have h1 : toSchemaGames (header :: data) = chunkPairs data := by
    show gamesOfIndexed ((List.enum (header :: data)).drop 1) = _
    have he : (List.enum (header :: data)).drop 1 = List.enumFrom 1 data := rfl
    rw [he]
    exact gamesOfIndexed_enumFrom data 1 rfl
  refine ⟨h1, ?_, ?_⟩
  · rw [h1]
    exact chunkPairs_length data
  · intro k
    rw [h1]
    exact chunkPairs_getElem? data k

/-! ## Drivers (`OddsScraper.driver` lines 161-199, `NHLOddsScraper.driver`
lines 564-582)

`fetch : Nat → Option α` abstracts `requests.get` + `pd.read_html` +
slicing `[1:]` for one season: `none` models `pd.read_html` raising
`ValueError` (no tables on the page), `some t` the reformatted season
table.  The base driver wraps the body in `try/except ValueError:` and
`continue`s; the NHL driver has no handler, so a raised error aborts the
whole loop. -/

def baseDriverTables {α : Type} : List Nat → (Nat → Option α) → List (Nat × α)
  | [], _ => []
  | s :: rest, fetch =>
    match fetch s with
    | some t => (s, t) :: baseDriverTables rest fetch
    | none => baseDriverTables rest fetch

def nhlDriverTables {α : Type} : List Nat → (Nat → Option α) →
    Option (List (Nat × α))
  | [], _ => some []
  | s :: rest, fetch =>
    match fetch s with
    | none => none
    | some t => (nhlDriverTables rest fetch).map fun r => (s, t) :: r

/-- C7: the base `OddsScraper.driver` (NFL/NBA/NCAA) skips a season whose
page has no parseable table and keeps all the others, but
`NHLOddsScraper.driver` has no `try/except`: with seasons `[2011, 2012]`
where 2011 has no tables, the raised `ValueError` aborts the whole NHL run
(result `none`), losing 2012's data, while the base driver returns exactly
the successful seasons. -/
theorem nhl_driver_aborts_on_missing_season :
    (∀ (α : Type) (seasons : List Nat) (fetch : Nat → Option α),
      baseDriverTables seasons fetch =
        seasons.filterMap fun s => (fetch s).map fun t => (s, t)) ∧
    nhlDriverTables [2011, 2012] (fun s => if s = 2012 then some () else none)
      = none ∧
    baseDriverTables [2011, 2012] (fun s => if s = 2012 then some () else none)
      = [(2012, ())] := by
  refine ⟨fun α seasons fetch => ?_, by decide, by decide⟩
  induction seasons with
  | nil => rfl
  | cons s rest ih =>
    show (match fetch s with
      | some t => (s, t) :: baseDriverTables rest fetch
      | none => baseDriverTables rest fetch) = _
    rw [List.filterMap_cons]
    cases fetch s with
    | none => exact ih
    | some t => exact congrArg _ ih

/-- C8: for every token, the sanitization step returns `0` exactly on the
ten blacklist sentinels (never raising there), passes every other token to
`float(...)` unchanged (so a parseable non-blacklisted token yields its
numeric value), and the NFL two-stage variant (keep the raw token, convert
later) agrees with the NHL one-stage variant. -/
theorem sanitize_blacklist_spec (parseFloat : String → Option ℚ) (x : String) :
    (x ∈ blacklist → sanitizeToken parseFloat x = some 0) ∧
    (x ∉ blacklist → sanitizeToken parseFloat x = parseFloat x) ∧
    nflSanitize parseFloat x = sanitizeToken parseFloat x := by
  refine ⟨fun h => ?_, fun h => ?_, ?_⟩
  · simp [sanitizeToken, h]
  · simp [sanitizeToken, h]
  · by_cases h : x ∈ blacklist <;> simp [nflSanitize, sanitizeToken, h]

/-- C8 witness: the blacklisted token `"pk"` sanitizes to `0` even under a
`float` that rejects everything, and a non-blacklisted parseable token
(`"3.5"`) yields its numeric value. -/
theorem sanitize_blacklist_spec_witness :
    sanitizeToken (fun _ => none) "pk" = some 0 ∧
    sanitizeToken (fun _ => some (7 / 2)) "3.5" = some (7 / 2) := by
  constructor
  · exact (sanitize_blacklist_spec (fun _ => none) "pk").1 (by decide)
  · exact ((sanitize_blacklist_spec (fun _ => some (7 / 2)) "3.5").2.1
      (by decide)).trans rfl

/-! ## More Python string builtins, for `NCAABasketball2ndHalf`

`pyStrip` is `str.strip()`, `pySplitWs` is no-argument `str.split()`
(split on whitespace runs, dropping empty pieces), `pyJoin` is
`sep.join(parts)`, `pySplit` is `str.split(sep)` for a nonempty separator
(split at every non-overlapping occurrence, left to right), `pyIntOpt` is
`int(...)` returning `none` where Python raises `ValueError`, and
`pyContains` is the `sub in s` test (equivalently: splitting on `sub`
yields more than one part). -/

def pyStrip (s : String) : String :=
  ⟨((s.data.dropWhile Char.isWhitespace).reverse.dropWhile
      Char.isWhitespace).reverse⟩

def wsSplitGo : List Char → List Char → List (List Char)
  | [], acc => [acc.reverse]
  | c :: rest, acc =>
    if c.isWhitespace then acc.reverse :: wsSplitGo rest []
    else wsSplitGo rest (c :: acc)

def pySplitWs (s : String) : List String :=
  ((wsSplitGo s.data []).filter fun p => !p.isEmpty).map fun l => ⟨l⟩

def pyJoin (sep : String) : List String → String
  | [] => ""
  | [p] => p
  | p :: ps => p ++ sep ++ pyJoin sep ps

def pyIntOpt (s : String) : Option Int :=
  match (pyStrip s).data with
  | '-' :: ds => if isDigitStr ds then some (-(natVal ds : Int)) else none
  | '+' :: ds => if isDigitStr ds then some ((natVal ds : Int)) else none
  | ds => if isDigitStr ds then some ((natVal ds : Int)) else none

def splitSubGo (sep : List Char) : Nat → List Char → List Char → List (List Char)
  | _, acc, [] => [acc.reverse]
  | 0, acc, l => [acc.reverse ++ l]
  | fuel + 1, acc, c :: rest =>
    if sep.isPrefixOf (c :: rest) then
      acc.reverse :: splitSubGo sep fuel [] (List.drop (sep.length - 1) rest)
    else
      splitSubGo sep fuel (c :: acc) rest

def pySplit (sep s : String) : List String :=
  (splitSubGo sep.data s.data.length [] s.data).map fun l => ⟨l⟩

def pyContains (s sub : String) : Bool := (pySplit sub s).length != 1

example : pySplit " - " "Duke 75 - North Carolina 70" = ["Duke 75", "North Carolina 70"] := by decide
example : pySplit " - " "A 1 - B 2 - C 3" = ["A 1", "B 2", "C 3"] := by decide
example : pySplitWs "  a  bc " = ["a", "bc"] := by decide
example : pyIntOpt "75" = some 75 := by decide
example : pyIntOpt "-3" = some (-3) := by decide
example : pyIntOpt "Carolina" = none := by decide

/-! ## FreeTextGameParser (`NCAABasketball2ndHalf._parse_teams_and_scores`,
lines 997-1086) -/

/-- The per-half parse of `_parse_teams_and_scores` (the code duplicated
for `parts[0]` and `parts[1]`): split the half on whitespace; with at
least two tokens and an integer trailing token, the name is the join of
the leading tokens and the score the trailing token; otherwise the whole
stripped half is the name and the score is `0`. -/
def parseHalf (p : String) : String × Int :=
  let parts := pySplitWs (pyStrip p)
  if parts.length ≥ 2 then
    match pyIntOpt (parts.getLastD "") with
    | some sc => (pyJoin " " parts.dropLast, sc)
    | none => (pyStrip p, 0)
  else (pyStrip p, 0)

/-- The token scan of the no-separator branch:
`for i in range(1, len(words) - 2)`, looking for an integer token at `i`
and at `i + 2`; `some i` is the loop's `break` index, `none` the `for`'s
`else`. -/
def scanSplitGo (words : List String) : Nat → Nat → Option Nat
  | 0, _ => none
  | fuel + 1, i =>
    if i < words.length - 2 then
      match pyIntOpt (words.getD i "") with
      | some _ =>
        if i + 2 < words.length then
          match pyIntOpt (words.getD (i + 2) "") with
          | some _ => some i
          | none => scanSplitGo words fuel (i + 1)
        else
          scanSplitGo words fuel (i + 1)
      | none => scanSplitGo words fuel (i + 1)
    else none

def scanSplit (words : List String) : Option Nat :=
  scanSplitGo words words.length 1

/-- `NCAABasketball2ndHalf._parse_teams_and_scores`: strip; split on
`" - "` if present, else on `" @ "` if present, else find a
`name score name score` token split (falling back to the midpoint when the
scan fails, and to the sentinel when there are fewer than 4 tokens); a
split with other than exactly two parts yields the sentinel
`("Team1", 0, "Team2", 0)`; finally each half is parsed by `parseHalf`. -/
def parseTeamsAndScores (s : String) : String × Int × String × Int :=
  let t := pyStrip s
  let partsOpt : Option (List String) :=
    if pyContains t " - " then some (pySplit " - " t)
    else if pyContains t " @ " then some (pySplit " @ " t)
    else
      let words := pySplitWs t
      if words.length ≥ 4 then
        some (match scanSplit words with
          | some i =>
            [pyJoin " " (words.take (i + 1)), pyJoin " " (words.drop (i + 1))]
          | none =>
            [pyJoin " " (words.take (words.length / 2)),
             pyJoin " " (words.drop (words.length / 2))])
      else none
  match partsOpt with
  | none => ("Team1", 0, "Team2", 0)
  | some parts =>
    if parts.length ≠ 2 then ("Team1", 0, "Team2", 0)
    else
      ((parseHalf (parts.getD 0 "")).1, (parseHalf (parts.getD 0 "")).2,
        (parseHalf (parts.getD 1 "")).1, (parseHalf (parts.getD 1 "")).2)

example : parseTeamsAndScores "Duke 75 - North Carolina 70" =
    ("Duke", 75, "North Carolina", 70) := by decide
example : parseTeamsAndScores "A 1 - B 2 - C 3" = ("Team1", 0, "Team2", 0) := by decide

/-- C9 counterexample: the claim says a string containing `" - "` is split
at the *first* occurrence into exactly two parts and each half parsed —
which on `"A 1 - B 2 - C 3"` would give `("A", 1, "B 2 - C", 3)`.  The
code splits at *every* occurrence (`str.split`), gets three parts, and
returns the sentinel. -/
theorem parse_teams_first_occurrence_counterexample :
    parseTeamsAndScores "A 1 - B 2 - C 3" = ("Team1", 0, "Team2", 0) ∧
    (("Team1", (0 : Int), "Team2", (0 : Int)) : String × Int × String × Int) ≠
      ("A", 1, "B 2 - C", 3) :=
  ⟨by decide, by decide⟩

/-- C9 (amended): the parser splits on every occurrence of `" - "` when
that separator is present, and otherwise on every occurrence of `" @ "`
when that one is; in either case, when the split yields exactly two parts
each half is parsed by the trailing-token rule (`parseHalf`), and when it
yields three or more parts the sentinel `("Team1", 0, "Team2", 0)` is
returned;
`parse("Duke 75 - North Carolina 70") = ("Duke", 75, "North Carolina", 70)`. -/
theorem parse_teams_split_behavior :
    (∀ s p1 p2 : String, pySplit " - " (pyStrip s) = [p1, p2] →
      parseTeamsAndScores s =
        ((parseHalf p1).1, (parseHalf p1).2,
          (parseHalf p2).1, (parseHalf p2).2)) ∧
    (∀ (s : String) (parts : List String), pySplit " - " (pyStrip s) = parts →
      parts.length ≠ 1 → parts.length ≠ 2 →
      parseTeamsAndScores s = ("Team1", 0, "Team2", 0)) ∧
    (∀ s p1 p2 : String, pyContains (pyStrip s) " - " = false →
      pySplit " @ " (pyStrip s) = [p1, p2] →
      parseTeamsAndScores s =
        ((parseHalf p1).1, (parseHalf p1).2,
          (parseHalf p2).1, (parseHalf p2).2)) ∧
    (∀ (s : String) (parts : List String), pyContains (pyStrip s) " - " = false →
      pySplit " @ " (pyStrip s) = parts →
      parts.length ≠ 1 → parts.length ≠ 2 →
      parseTeamsAndScores s = ("Team1", 0, "Team2", 0)) := by
  refine ⟨?_, ?_, ?_, ?_⟩
  · intro s p1 p2 h
    have hc : pyContains (pyStrip s) " - " = true := by
      simp [pyContains, h]
    simp [parseTeamsAndScores, hc, h]
  · intro s parts h h1 h2
    have hc : pyContains (pyStrip s) " - " = true := by
      simp [pyContains, h]
      omega
    simp [parseTeamsAndScores, hc, h, h2]
  · intro s p1 p2 hF h
    have hc : pyContains (pyStrip s) " @ " = true := by
      simp [pyContains, h]
    simp [parseTeamsAndScores, hF, hc, h]
  · intro s parts hF h h1 h2
    have hc : pyContains (pyStrip s) " @ " = true := by
      simp [pyContains, h]
      omega
    simp [parseTeamsAndScores, hF, hc, h, h2]

/-- C9 witness: the well-formed round-trip named in the claim, via the
amended theorem, and the same game text through the `" @ "` fallback
separator. -/
theorem parse_teams_split_behavior_witness :
    parseTeamsAndScores "Duke 75 - North Carolina 70" =
      ("Duke", 75, "North Carolina", 70) ∧
    parseTeamsAndScores "Duke 75 @ North Carolina 70" =
      ("Duke", 75, "North Carolina", 70) := by
  constructor
  · have h := parse_teams_split_behavior.1 "Duke 75 - North Carolina 70"
      "Duke 75" "North Carolina 70" (by decide)
    exact h.trans (by decide)
  · have h := parse_teams_split_behavior.2.2.1 "Duke 75 @ North Carolina 70"
      "Duke 75" "North Carolina 70" (by decide) (by decide)
    exact h.trans (by decide)

/-! ## NCAABasketball2ndHalf `_reformat_data` (lines 1200-1283)

`parseOpener` is `_parse_opener` and `parseSportsbookOdds` is
`_parse_sportsbook_odds`; `processGameRow` is the body of the per-row loop
of `_reformat_data`, which appends two records per game row (one per
team).  `tr` is `self._translate`; `pf` models `float`; the `row` is the
list of that table row's cells (`row.iloc[i]`, defaulting to `""` past the
end, as in the `if len(row) > i` guards). -/

def parseOpener (pf : String → Option ℚ) (t : String) : String × ℚ × String :=
  let parts := pySplitWs t
  if parts.length ≥ 3 then
    match pf (parts.getD 1 "") with
    | some q => (parts.getD 0 "", q, parts.getD 2 "")
    | none => ("", 0, "")
  else ("", 0, "")

def parseSportsbookOdds (pf : String → Option ℚ) (t : String) : ℚ × String :=
  let parts := pySplitWs t
  if parts.length ≥ 2 then
    match pf (parts.getD 0 "") with
    | some q => (q, parts.getD 1 "")
    | none => (0, "")
  else if parts.length = 1 then (0, parts.getD 0 "")
  else (0, "")

structure Game2HRecord where
  date : String
  time : String
  rotation : String
  team : String
  opponent : String
  team_score : Int
  opponent_score : Int
  wagers_percent : String
  opener_ou : String
  opener_total : ℚ
  opener_odds : String
  betmgm_total : ℚ
  betmgm_odds : String
  fanduel_total : ℚ
  fanduel_odds : String
  caesars_total : ℚ
  caesars_odds : String
  bet365_total : ℚ
  bet365_odds : String
  draftkings_total : ℚ
  draftkings_odds : String
  betrivers_total : ℚ
  betrivers_odds : String

/-- One iteration of the row loop of `NCAABasketball2ndHalf._reformat_data`:
parse the teams/scores, the opener and the sportsbook columns 5..10 (padded
with `(0, "")` up to six books), then append two records — `team_idx = 0`
with `(team1, team2)` and `team_idx = 1` with the roles swapped. -/
def processGameRow (pf : String → Option ℚ) (tr : String → String)
    (date : String) (row : List String) : List Game2HRecord :=
  let time := row.getD 0 ""
  let rotation := row.getD 1 ""
  let teamsText := row.getD 2 ""
  let wagers := row.getD 3 ""
  let opener := row.getD 4 ""
  let ts := parseTeamsAndScores teamsText
  let op := parseOpener pf opener
  let sbs := ((row.drop 5).take 6).map (parseSportsbookOdds pf)
  let sportsbooks := sbs ++ List.replicate (6 - sbs.length) ((0 : ℚ), "")
  [ { date := date, time := time, rotation := rotation,
      team := tr ts.1, opponent := tr ts.2.2.1,
      team_score := ts.2.1, opponent_score := ts.2.2.2,
      wagers_percent := wagers,
      opener_ou := op.1, opener_total := op.2.1, opener_odds := op.2.2,
      betmgm_total := (sportsbooks.getD 0 (0, "")).1,
      betmgm_odds := (sportsbooks.getD 0 (0, "")).2,
      fanduel_total := (sportsbooks.getD 1 (0, "")).1,
      fanduel_odds := (sportsbooks.getD 1 (0, "")).2,
      caesars_total := (sportsbooks.getD 2 (0, "")).1,
      caesars_odds := (sportsbooks.getD 2 (0, "")).2,
      bet365_total := (sportsbooks.getD 3 (0, "")).1,
      bet365_odds := (sportsbooks.getD 3 (0, "")).2,
      draftkings_total := (sportsbooks.getD 4 (0, "")).1,
      draftkings_odds := (sportsbooks.getD 4 (0, "")).2,
      betrivers_total := (sportsbooks.getD 5 (0, "")).1,
      betrivers_odds := (sportsbooks.getD 5 (0, "")).2 },
    { date := date, time := time, rotation := rotation,
      team := tr ts.2.2.1, opponent := tr ts.1,
      team_score := ts.2.2.2, opponent_score := ts.2.1,
      wagers_percent := wagers,
      opener_ou := op.1, opener_total := op.2.1, opener_odds := op.2.2,
      betmgm_total := (sportsbooks.getD 0 (0, "")).1,
      betmgm_odds := (sportsbooks.getD 0 (0, "")).2,
      fanduel_total := (sportsbooks.getD 1 (0, "")).1,
      fanduel_odds := (sportsbooks.getD 1 (0, "")).2,
      caesars_total := (sportsbooks.getD 2 (0, "")).1,
      caesars_odds := (sportsbooks.getD 2 (0, "")).2,
      bet365_total := (sportsbooks.getD 3 (0, "")).1,
      bet365_odds := (sportsbooks.getD 3 (0, "")).2,
      draftkings_total := (sportsbooks.getD 4 (0, "")).1,
      draftkings_odds := (sportsbooks.getD 4 (0, "")).2,
      betrivers_total := (sportsbooks.getD 5 (0, "")).1,
      betrivers_odds := (sportsbooks.getD 5 (0, "")).2 } ]

/-- The whole row loop of `_reformat_data` for one date: two records per
game row (the per-row `try/except` never fires in the model because every
parse helper is total). -/
def reformatData2H (pf : String → Option ℚ) (tr : String → String)
    (date : String) (rows : List (List String)) : List Game2HRecord :=
  rows.flatMap (processGameRow pf tr date)

/-- C10: every processed game row appends exactly two records, and they
are mirror images: team/opponent and team_score/opponent_score are swapped
between the two, while the date, time, rotation, wagers percentage, the
three opener fields and all twelve sportsbook fields are identical. -/
theorem process_game_row_mirror (pf : String → Option ℚ)
    (tr : String → String) (date : String) (row : List String) :
    ∃ r1 r2 : Game2HRecord, processGameRow pf tr date row = [r1, r2] ∧
      r2.team = r1.opponent ∧ r2.opponent = r1.team ∧
      r2.team_score = r1.opponent_score ∧ r2.opponent_score = r1.team_score ∧
      r2.date = r1.date ∧ r2.time = r1.time ∧ r2.rotation = r1.rotation ∧
      r2.wagers_percent = r1.wagers_percent ∧ r2.opener_ou = r1.opener_ou ∧
      r2.opener_total = r1.opener_total ∧ r2.opener_odds = r1.opener_odds ∧
      r2.betmgm_total = r1.betmgm_total ∧ r2.betmgm_odds = r1.betmgm_odds ∧
      r2.fanduel_total = r1.fanduel_total ∧ r2.fanduel_odds = r1.fanduel_odds ∧
      r2.caesars_total = r1.caesars_total ∧ r2.caesars_odds = r1.caesars_odds ∧
      r2.bet365_total = r1.bet365_total ∧ r2.bet365_odds = r1.bet365_odds ∧
      r2.draftkings_total = r1.draftkings_total ∧
      r2.draftkings_odds = r1.draftkings_odds ∧
      r2.betrivers_total = r1.betrivers_total ∧
      r2.betrivers_odds = r1.betrivers_odds := by
  refine ⟨_, _, rfl, ?_⟩
  and_intros <;> rfl

end SBR
